import Mathlib

/-!
Shallow embedding of `wifi.py`: a discrete-time simulation of packet
forwarding across routers with delayed, lossy links.  Routers are
identified by natural-number ids; Python dictionaries become association
lists; the ambient random source becomes an explicit stream of rational
draws; Python exceptions (KeyError on a failed dict lookup,
AttributeError on dereferencing a `None` next hop) become an `Except Err`
result.
-/

/-- `NEIGHBOUR_DELAY = 1` (neighbour lookup delay). -/
def NEIGHBOUR_DELAY : Int := 1

/-- `DISTANT_DELAY = 2` (route lookup delay). -/
def DISTANT_DELAY : Int := 2

/-- A packet: `via` is the next-hop router id (`none` when unassigned),
`delay` the countdown (`none` models a Python `None` delay; the default
constructor uses `some 0`). -/
structure Packet where
  source : Nat
  destination : Nat
  connection : Nat
  delay : Option Int := some 0
  via : Option Nat := none
  is_reply : Bool := false
  lifetime : Nat := 0
deriving Repr, DecidableEq

/-- A router: `connections` maps neighbour id to link delay, `routes`
maps destination id to next-hop id, `input`/`output` are the FIFO
queues. -/
structure Router where
  id : Nat
  connections : List (Nat × Int) := []
  routes : List (Nat × Nat) := []
  input : List Packet := []
  output : List Packet := []
deriving Repr, DecidableEq

/-- The Python runtime errors the simulation can raise: `keyErr` for a
failed dict lookup (`self.connections[via]`), `viaNone` for
dereferencing a `None` next hop (`packet.via.id` /
`packet.via.add_incoming_packet`). -/
inductive Err where
  | keyErr
  | viaNone
deriving Repr, DecidableEq

/-- The diagnostic events the simulation reports: `delivered` and `lost`
are the stdout `i=.. conn=.. node=.. src=.. dest=.. status=..` lines;
`lostAt` is the `"{packet} lost at {router}"` forwarding-failure line,
which carries the packet's printed fields and the router id. -/
inductive Event where
  | delivered (i conn node src dest : Nat)
  | lost (i conn node src dest : Nat)
  | lostAt (conn src dest : Nat) (via : Option Nat) (delay : Option Int)
      (lifetime : Nat) (router : Nat)
deriving Repr, DecidableEq

/-- `Router.get_route_for`: routing-table entry first, else the
destination itself when it is a direct neighbour, else no result. -/
def Router.get_route_for (r : Router) (destination : Nat) : Option Nat :=
  match r.routes.lookup destination with
  | some v => some v
  | none =>
    if (r.connections.lookup destination).isSome then some destination
    else none

/-- The body of the `process_incoming_packets` loop for one packet:
returns the updated router and the events it reports, or the Python
exception it raises. -/
def Router.processPacket (r : Router) (i : Nat) (p : Packet) :
    Except Err (Router × List Event) :=
  if p.destination = r.id then
    if p.is_reply then
      .ok (r, [.delivered i p.connection r.id p.source p.destination])
    else
      let via := r.get_route_for p.source
      let lookup_delay : Int :=
        if (match via with
            | some v => (r.connections.lookup v).isSome
            | none => false) then NEIGHBOUR_DELAY else DISTANT_DELAY
      match via with
      | none => .error .keyErr
      | some v =>
        match r.connections.lookup v with
        | none => .error .keyErr
        | some d =>
          let reply : Packet :=
            { source := r.id, destination := p.source,
              connection := p.connection, via := some v,
              delay := some (d + lookup_delay),
              lifetime := p.lifetime, is_reply := true }
          .ok ({ r with output := r.output ++ [reply] }, [])
  else
    match r.connections.lookup p.destination with
    | some d =>
      .ok ({ r with output := r.output ++
              [{ p with via := some p.destination,
                        delay := some (d + NEIGHBOUR_DELAY) }] }, [])
    | none =>
      match r.routes.lookup p.destination with
      | some v =>
        match r.connections.lookup v with
        | some d =>
          .ok ({ r with output := r.output ++
                  [{ p with via := some v,
                            delay := some (d + DISTANT_DELAY) }] }, [])
        | none => .error .keyErr
      | none =>
        .ok (r, [.lostAt p.connection p.source p.destination p.via p.delay
                  p.lifetime r.id])

/-- Folds `processPacket` over a list of packets, threading the router
state and collecting events. -/
def Router.processList (r : Router) (i : Nat) :
    List Packet → Except Err (Router × List Event)
  | [] => .ok (r, [])
  | p :: ps =>
    match r.processPacket i p with
    | .error e => .error e
    | .ok (r₁, ev₁) =>
      match r₁.processList i ps with
      | .error e => .error e
      | .ok (r₂, ev₂) => .ok (r₂, ev₁ ++ ev₂)

/-- `Router.process_incoming_packets`: drains the input queue,
processing each packet in order. -/
def Router.process_incoming_packets (r : Router) (i : Nat) :
    Except Err (Router × List Event) :=
  Router.processList { r with input := [] } i r.input

/-- `Packet.tick`: decrement `delay` when set, always increment
`lifetime`; returns the updated packet and the returned delay. -/
def Packet.tick (p : Packet) : Packet × Option Int :=
  match p.delay with
  | some d =>
    ({ p with delay := some (d - 1), lifetime := p.lifetime + 1 },
     some (d - 1))
  | none => ({ p with lifetime := p.lifetime + 1 }, none)

/-- The network: the routers and the in-transit packet sequence. -/
structure Network where
  routers : List Router
  packets : List Packet
deriving Repr, DecidableEq

/-- Appends a packet to the input queue of the first router with the
given id (Python delivers through an object reference, which is unique). -/
def addInput : List Router → Nat → Packet → List Router
  | [], _, _ => []
  | r :: rs, v, p =>
    if r.id = v then { r with input := r.input ++ [p] } :: rs
    else r :: addInput rs v p

/-- `Network.__init__`: moves every initial packet into its source
router's input queue, in order. -/
def Network.init (routers : List Router) (packets : List Packet) :
    Network :=
  { routers := packets.foldl (fun rs p => addInput rs p.source p) routers,
    packets := [] }

/-- The loss phase, processing the `k`-th in-transit packet with draw
`draw k`: a packet is dropped when its draw is `≤ q`; each dropped
packet is reported with `packet.via.id` (raising `viaNone` when `via`
is unset). -/
def dropGo (q : ℚ) (draw : Nat → ℚ) (i : Nat) :
    Nat → List Packet → Except Err (List Packet × List Event)
  | _, [] => .ok ([], [])
  | k, p :: ps =>
    if draw k ≤ q then
      match p.via with
      | none => .error .viaNone
      | some v =>
        match dropGo q draw i (k + 1) ps with
        | .error e => .error e
        | .ok (ps', ev) =>
          .ok (ps', .lost i p.connection v p.source p.destination :: ev)
    else
      match dropGo q draw i (k + 1) ps with
      | .error e => .error e
      | .ok (ps', ev) => .ok (p :: ps', ev)

/-- `Network.drop_packets`: one independent draw per in-transit packet. -/
def drop_packets (q : ℚ) (draw : Nat → ℚ) (i : Nat) (ps : List Packet) :
    Except Err (List Packet × List Event) :=
  dropGo q draw i 0 ps

/-- `Network.deliver_packets`: ticks each in-transit packet; a packet
whose returned delay is an int `≤ 0` moves to its `via` router's input
queue with `via` cleared (raising `viaNone` when `via` is unset); a
packet with delay `none` is silently discarded; the rest stay in
transit. -/
def deliver_packets (rs : List Router) :
    List Packet → Except Err (List Router × List Packet)
  | [] => .ok (rs, [])
  | p :: ps =>
    match p.tick with
    | (_, none) => deliver_packets rs ps
    | (p', some t) =>
      if t ≤ 0 then
        match p'.via with
        | none => .error .viaNone
        | some v =>
          deliver_packets (addInput rs v { p' with via := none }) ps
      else
        match deliver_packets rs ps with
        | .error e => .error e
        | .ok (rs', ps') => .ok (rs', p' :: ps')

/-- `Network.process_incoming_packets`: every router, in order, drains
its input queue. -/
def processRouters (i : Nat) :
    List Router → Except Err (List Router × List Event)
  | [] => .ok ([], [])
  | r :: rs =>
    match r.process_incoming_packets i with
    | .error e => .error e
    | .ok (r', ev₁) =>
      match processRouters i rs with
      | .error e => .error e
      | .ok (rs', ev₂) => .ok (r' :: rs', ev₁ ++ ev₂)

/-- `Network.transmit_packets`: drains every router's output queue into
the in-transit sequence, in router order. -/
def transmit_packets (rs : List Router) : List Router × List Packet :=
  (rs.map (fun r => { r with output := [] }),
   (rs.map (fun r => r.output)).flatten)

/-- `Network.tick`: loss, delivery, router processing, transmission. -/
def Network.tick (net : Network) (q : ℚ) (draw : Nat → ℚ) (i : Nat) :
    Except Err (Network × List Event) :=
  match drop_packets q draw i net.packets with
  | .error e => .error e
  | .ok (ps₁, ev₁) =>
    match deliver_packets net.routers ps₁ with
    | .error e => .error e
    | .ok (rs₂, ps₂) =>
      match processRouters i rs₂ with
      | .error e => .error e
      | .ok (rs₃, ev₃) =>
        let (rs₄, out) := transmit_packets rs₃
        .ok ({ routers := rs₄, packets := ps₂ ++ out }, ev₁ ++ ev₃)

/-- `Network.finished`: no packet in transit and every router's queues
empty. -/
def Network.finished (net : Network) : Bool :=
  net.packets.isEmpty &&
    net.routers.all (fun r => r.input.isEmpty && r.output.isEmpty)

/-- Runs `n` ticks of `Network.run`'s loop starting at tick index `i`
(the loop uses a 1-based counter; `draw i` is the loss-phase stream of
tick `i`). -/
def Network.runFor (net : Network) (q : ℚ) (draw : Nat → Nat → ℚ) :
    Nat → Nat → Except Err (Network × List Event)
  | _, 0 => .ok (net, [])
  | i, n + 1 =>
    match net.tick q (draw i) i with
    | .error e => .error e
    | .ok (net₁, ev₁) =>
      match net₁.runFor q draw (i + 1) n with
      | .error e => .error e
      | .ok (net₂, ev₂) => .ok (net₂, ev₁ ++ ev₂)

/-! ### Concrete scenarios

The commented-out example of `main()`: routers 1–2–3 in a line, link
delays 11 and 5, router 1 routing 3 via 2 and router 3 routing 1 via 2,
with a single request packet from 1 to 3 (connection tag 7). -/

def r1 : Router := { id := 1, connections := [(2, 11)], routes := [(3, 2)] }

def r2 : Router := { id := 2, connections := [(1, 11), (3, 5)] }

def r3 : Router := { id := 3, connections := [(2, 5)], routes := [(1, 2)] }

def lineNet : Network :=
  Network.init [r1, r2, r3] [{ source := 1, destination := 3, connection := 7 }]

/-- A strictly positive draw stream (constantly 1): at `Q = 0` it never
fires. -/
def oneDraw : Nat → Nat → ℚ := fun _ _ => 1

/-! ### Per-packet forwarding and reply theorems -/

/-- C3: a non-reply packet at its destination produces exactly one reply
appended to the output queue, preserving connection and lifetime, with
`is_reply = true`, `via = get_route_for source`, and delay = link delay
to `via` plus `NEIGHBOUR_DELAY` when `via` is a direct neighbour (else
`DISTANT_DELAY`); a reply at its destination generates no further
packet. -/
theorem reply_construction (r : Router) (i : Nat) (p : Packet) (v : Nat)
    (d : Int) (hd : p.destination = r.id) (hr : p.is_reply = false)
    (hv : r.get_route_for p.source = some v)
    (hc : r.connections.lookup v = some d) :
    (r.processPacket i p =
      .ok ({ r with output := r.output ++
        [{ source := r.id, destination := p.source,
           connection := p.connection, via := some v,
           delay := some (d + (if (r.connections.lookup v).isSome
                               then NEIGHBOUR_DELAY else DISTANT_DELAY)),
           lifetime := p.lifetime, is_reply := true }] }, [])) ∧
    (∀ (r' : Router) (i' : Nat) (q : Packet), q.destination = r'.id →
      q.is_reply = true →
      r'.processPacket i' q =
        .ok (r', [.delivered i' q.connection r'.id q.source
                   q.destination])) := by
  constructor
  · simp [Router.processPacket, hd, hr, hv, hc]
  · intro r' i' q hq hqr
    simp [Router.processPacket, hq, hqr]

/-- A concrete request packet from router 1 to router 3, already at its
destination, used to instantiate the reply-construction theorem. -/
def preq : Packet :=
  { source := 1, destination := 3, connection := 7, lifetime := 4 }

/-- Witness for `reply_construction` at a concrete router and packet. -/
theorem reply_construction_witness :
    (preq.destination = r3.id ∧ preq.is_reply = false ∧
      r3.get_route_for preq.source = some 2 ∧
      r3.connections.lookup 2 = some 5) ∧
    r3.processPacket 9 preq =
      .ok ({ r3 with output :=
        [{ source := 3, destination := 1, connection := 7, via := some 2,
           delay := some (5 + (if (r3.connections.lookup 2).isSome
                               then NEIGHBOUR_DELAY else DISTANT_DELAY)),
           lifetime := 4, is_reply := true }] }, []) := by
  refine ⟨⟨rfl, rfl, rfl, rfl⟩, ?_⟩
  exact (reply_construction r3 9 preq 2 5 rfl rfl rfl rfl).1

/-- C4: forwarding a packet (destination ≠ this router): to a direct
neighbour, `via = destination`, `delay = link + NEIGHBOUR_DELAY`; to a
destination that is not a neighbour but has a table entry whose next hop
is a neighbour, `via = routes[destination]`,
`delay = link(next hop) + DISTANT_DELAY`; in both cases the packet is
appended to the output queue. -/
theorem forward_delays :
    (∀ (r : Router) (i : Nat) (p : Packet) (d : Int),
      p.destination ≠ r.id → r.connections.lookup p.destination = some d →
      r.processPacket i p =
        .ok ({ r with output := r.output ++
          [{ p with via := some p.destination,
                    delay := some (d + NEIGHBOUR_DELAY) }] }, [])) ∧
    (∀ (r : Router) (i : Nat) (p : Packet) (v : Nat) (d : Int),
      p.destination ≠ r.id → r.connections.lookup p.destination = none →
      r.routes.lookup p.destination = some v →
      r.connections.lookup v = some d →
      r.processPacket i p =
        .ok ({ r with output := r.output ++
          [{ p with via := some v,
                    delay := some (d + DISTANT_DELAY) }] }, [])) := by
  constructor
  · intro r i p d hd hc
    simp [Router.processPacket, hd, hc]
  · intro r i p v d hd hc hrt hcv
    simp [Router.processPacket, hd, hc, hrt, hcv]

/-- Witness for `forward_delays`: router 2 forwards to its neighbour 3,
and router 1 forwards to the distant router 3 via its table entry 2. -/
theorem forward_delays_witness :
    (Packet.destination { source := 1, destination := 3, connection := 7 }
        ≠ r2.id ∧
      r2.connections.lookup 3 = some 5 ∧
      r1.connections.lookup 3 = none ∧
      r1.routes.lookup 3 = some 2 ∧
      r1.connections.lookup 2 = some 11) ∧
    r2.processPacket 1 { source := 1, destination := 3, connection := 7 } =
      .ok ({ r2 with output :=
        [{ source := 1, destination := 3, connection := 7, via := some 3,
           delay := some (5 + NEIGHBOUR_DELAY) }] }, []) ∧
    r1.processPacket 1 { source := 1, destination := 3, connection := 7 } =
      .ok ({ r1 with output :=
        [{ source := 1, destination := 3, connection := 7, via := some 2,
           delay := some (11 + DISTANT_DELAY) }] }, []) := by
  refine ⟨⟨by decide, rfl, rfl, rfl, rfl⟩, ?_, ?_⟩
  · exact forward_delays.1 r2 1 _ 5 (by decide) rfl
  · exact forward_delays.2 r1 1 _ 2 11 (by decide) rfl rfl rfl

/-- C9: if a non-reply packet is at its destination and
`get_route_for` of its source yields no result, processing raises the
lookup error (Python's `KeyError` on `self.connections[None]`) instead
of reporting a loss; when the route exists and is a direct neighbour the
branch succeeds. -/
theorem reply_route_lookup_error (r : Router) (i : Nat) (p : Packet)
    (hd : p.destination = r.id) (hr : p.is_reply = false) :
    (r.get_route_for p.source = none →
      r.processPacket i p = .error .keyErr) ∧
    (∀ v d, r.get_route_for p.source = some v →
      r.connections.lookup v = some d → (r.processPacket i p).isOk) := by
  constructor
  · intro hv
    simp [Router.processPacket, hd, hr, hv]
  · intro v d hv hc
    simp [Router.processPacket, hd, hr, hv, hc, Except.isOk, Except.toBool]

/-- Witness for `reply_route_lookup_error`: a request whose source
equals its destination arrives at an isolated router 5 and crashes. -/
theorem reply_route_lookup_error_witness :
    (Packet.destination { source := 5, destination := 5, connection := 0 }
        = Router.id { id := 5 } ∧
      Packet.is_reply { source := 5, destination := 5, connection := 0 }
        = false ∧
      Router.get_route_for { id := 5 } 5 = none) ∧
    Router.processPacket { id := 5 } 1
        { source := 5, destination := 5, connection := 0 } =
      .error .keyErr := by
  refine ⟨⟨rfl, rfl, rfl⟩, ?_⟩
  exact (reply_route_lookup_error { id := 5 } 1
    { source := 5, destination := 5, connection := 0 } rfl rfl).1 rfl

/-- A router having both a routing-table entry (next hop 2) and a direct
link for destination 3. -/
def rBoth : Router := { id := 1, connections := [(3, 5)], routes := [(3, 2)] }

/-- A packet bound for destination 3, not addressed to `rBoth`. -/
def pBoth : Packet := { source := 9, destination := 3, connection := 0 }

/-- C1 counterexample: at `rBoth`, destination 3 has table entry 2 and a
direct link; `get_route_for` returns the table entry 2, but the
forwarding decision in `processPacket` sends the packet via the direct
link 3, not via the table's next hop 2. -/
theorem forward_priority_counterexample :
    rBoth.routes.lookup 3 = some 2 ∧
    rBoth.get_route_for 3 = some 2 ∧
    rBoth.processPacket 1 pBoth =
      .ok ({ rBoth with output :=
        [{ pBoth with via := some 3, delay := some (5 + NEIGHBOUR_DELAY) }] },
        []) ∧
    (some 3 : Option Nat) ≠ some 2 := by
  exact ⟨rfl, rfl, rfl, by decide⟩

/-- C1 amended: `get_route_for` does give the routing-table entry
priority over the direct-neighbour fallback, but the forwarding decision
in `process_incoming_packets` checks the direct link first: when the
destination is a direct neighbour the packet is forwarded straight to it
even if a routing-table entry for it exists; the table is consulted only
when the destination is not a neighbour. -/
theorem route_priority (r : Router) (dest : Nat) (v : Nat)
    (hrt : r.routes.lookup dest = some v) :
    (r.get_route_for dest = some v) ∧
    (∀ (i : Nat) (p : Packet) (d : Int), p.destination = dest →
      dest ≠ r.id → r.connections.lookup dest = some d →
      r.processPacket i p =
        .ok ({ r with output := r.output ++
          [{ p with via := some dest,
                    delay := some (d + NEIGHBOUR_DELAY) }] }, [])) := by
  constructor
  · simp [Router.get_route_for, hrt]
  · intro i p d hp hd hc
    subst hp
    simp [Router.processPacket, hd, hc]

/-- Witness for `route_priority` at `rBoth` and `pBoth`. -/
theorem route_priority_witness :
    (rBoth.routes.lookup 3 = some 2 ∧ pBoth.destination = 3 ∧
      (3 : Nat) ≠ rBoth.id ∧ rBoth.connections.lookup 3 = some 5) ∧
    rBoth.get_route_for 3 = some 2 ∧
    rBoth.processPacket 4 pBoth =
      .ok ({ rBoth with output :=
        [{ pBoth with via := some 3,
                      delay := some (5 + NEIGHBOUR_DELAY) }] }, []) := by
  refine ⟨⟨rfl, rfl, by decide, rfl⟩, ?_, ?_⟩
  · exact (route_priority rBoth 3 2 rfl).1
  · exact (route_priority rBoth 3 2 rfl).2 4 pBoth 5 rfl (by decide) rfl

/-- An isolated router with no links and no routes. -/
def rIso : Router := { id := 5 }

/-- An unroutable packet at `rIso`: destination 2 is neither a neighbour
nor in the table. -/
def pUnr : Packet := { source := 1, destination := 2, connection := 3 }

/-- C6 counterexample: the forwarding-failure diagnostic is not tagged
with the tick index — processing the same unroutable packet at tick 1
and at tick 2 reports the identical event, so the report cannot carry
the tick index (the delivered/lost lines at distinct ticks differ). -/
theorem unroutable_report_counterexample :
    rIso.processPacket 1 pUnr = rIso.processPacket 2 pUnr ∧
    (1 : Nat) ≠ 2 ∧
    Event.delivered 1 3 5 1 2 ≠ Event.delivered 2 3 5 1 2 ∧
    Event.lost 1 3 5 1 2 ≠ Event.lost 2 3 5 1 2 := by
  exact ⟨rfl, by decide, by decide, by decide⟩

/-- C6 amended: an unroutable packet is destroyed (the router is
unchanged; nothing is re-queued) and reported with its connection id,
source id, destination id and the current router id (plus the packet's
remaining printed fields), but — unlike the delivered and lost lines —
without the tick index. -/
theorem unroutable_report (r : Router) (i : Nat) (p : Packet)
    (hd : p.destination ≠ r.id)
    (hc : r.connections.lookup p.destination = none)
    (hrt : r.routes.lookup p.destination = none) :
    r.processPacket i p =
      .ok (r, [.lostAt p.connection p.source p.destination p.via p.delay
                p.lifetime r.id]) := by
  simp [Router.processPacket, hd, hc, hrt]

/-- Witness for `unroutable_report` at `rIso` and `pUnr`. -/
theorem unroutable_report_witness :
    (pUnr.destination ≠ rIso.id ∧
      rIso.connections.lookup pUnr.destination = none ∧
      rIso.routes.lookup pUnr.destination = none) ∧
    rIso.processPacket 1 pUnr =
      .ok (rIso, [.lostAt 3 1 2 none (some 0) 0 5]) := by
  refine ⟨⟨by decide, rfl, rfl⟩, ?_⟩
  exact unroutable_report rIso 1 pUnr (by decide) rfl rfl

/-- With `q = 0` and strictly positive draws the loss phase is the
identity: no packet is dropped and nothing is reported. -/
theorem dropGo_pos (draw : Nat → ℚ) (i : Nat) (hpos : ∀ n, 0 < draw n) :
    ∀ (ps : List Packet) (k : Nat), dropGo 0 draw i k ps = .ok (ps, []) := by
  intro ps
  induction ps with
  | nil => intro k; rfl
  | cons p ps ih =>
    intro k
    have hk : ¬ draw k ≤ 0 := not_le.mpr (hpos k)
    simp [dropGo, hk, ih (k + 1)]

/-- With `q = 1` every packet whose via is set is dropped and reported:
the loss phase empties the transit list and reports one loss per
packet. -/
theorem dropGo_all (draw : Nat → ℚ) (i : Nat) (hle : ∀ n, draw n ≤ 1) :
    ∀ (ps : List Packet), (∀ p ∈ ps, p.via.isSome) →
      ∀ k, ∃ ev, dropGo 1 draw i k ps = .ok ([], ev) ∧
        ev.length = ps.length := by
  intro ps
  induction ps with
  | nil => intro _ k; exact ⟨[], rfl, rfl⟩
  | cons p ps ih =>
    intro hv k
    obtain ⟨v, hp⟩ := Option.isSome_iff_exists.mp (hv p (by simp))
    obtain ⟨ev, hrec, hlen⟩ := ih (fun p hp => hv p (by simp [hp])) (k + 1)
    refine ⟨.lost i p.connection v p.source p.destination :: ev, ?_, by
      simp [hlen]⟩
    simp [dropGo, hle k, hp, hrec]

/-- C5 amended: with `Q = 1` the loss phase removes every in-transit
packet (whose `via` is set, as in-transit packets always have) on the
tick it runs, reporting one loss per packet; with `Q = 0` a packet
survives whenever its draw is strictly positive — but the test is
`draw ≤ Q`, so a draw of exactly 0 (possible for `random.random()`)
still drops it. -/
theorem loss_extremes (ps : List Packet) (i : Nat) (draw : Nat → ℚ) :
    ((∀ k, draw k ≤ 1) → (∀ p ∈ ps, p.via.isSome) →
      ∃ ev, drop_packets 1 draw i ps = .ok ([], ev) ∧
        ev.length = ps.length) ∧
    ((∀ k, 0 < draw k) → drop_packets 0 draw i ps = .ok (ps, [])) := by
  constructor
  · intro hle hv
    exact dropGo_all draw i hle ps hv 0
  · intro hpos
    exact dropGo_pos draw i hpos ps 0

/-- A concrete in-transit packet (next hop 2, countdown 6). -/
def pTr : Packet :=
  { source := 1, destination := 3, connection := 4, via := some 2,
    delay := some 6 }

/-- C5 counterexample: the draw 0 lies in `[0,1)`, yet with `Q = 0` the
loss phase removes the packet (the drop test is `draw ≤ Q`, not
`draw < Q`), reporting it lost. -/
theorem loss_q0_counterexample :
    (0 : ℚ) ≤ 0 ∧ (0 : ℚ) < 1 ∧
    drop_packets 0 (fun _ => 0) 1 [pTr] = .ok ([], [.lost 1 4 2 1 3]) ∧
    ([] : List Packet) ≠ [pTr] := by
  refine ⟨le_refl 0, by norm_num, rfl, by decide⟩

/-- Witness for `loss_extremes` at the singleton transit list `[pTr]`
and the constant draw `1/2`. -/
theorem loss_extremes_witness :
    (∃ ev, drop_packets 1 (fun _ => 1 / 2) 1 [pTr] = .ok ([], ev) ∧
      ev.length = 1) ∧
    drop_packets 0 (fun _ => 1 / 2) 1 [pTr] = .ok ([pTr], []) := by
  constructor
  · exact (loss_extremes [pTr] 1 (fun _ => 1 / 2)).1
      (fun k => by norm_num) (by decide)
  · exact (loss_extremes [pTr] 1 (fun _ => 1 / 2)).2 (fun k => by norm_num)

/-- With `q = 0`, a tick does not depend on a strictly positive draw
stream: the loss phase drops nothing. -/
theorem tick_pos_draw (net : Network) (draw : Nat → ℚ) (i : Nat)
    (hpos : ∀ n, 0 < draw n) :
    net.tick 0 draw i = net.tick 0 (oneDraw i) i := by
  simp only [Network.tick, drop_packets, dropGo_pos draw i hpos,
    dropGo_pos (oneDraw i) i (fun _ => by norm_num [oneDraw])]

/-- With `q = 0`, running any number of ticks does not depend on a
strictly positive draw stream. -/
theorem runFor_pos_draw (draw : Nat → Nat → ℚ)
    (hpos : ∀ m n, 0 < draw m n) :
    ∀ (k : Nat) (net : Network) (i : Nat),
      net.runFor 0 draw i k = net.runFor 0 oneDraw i k := by
  intro k
  induction k with
  | zero => intro net i; rfl
  | succ k ih =>
    intro net i
    simp only [Network.runFor]
    rw [tick_pos_draw net (draw i) i (hpos i)]
    simp only [ih]

/-- C2 counterexample: in the line scenario with `Q = 0`, the first hop
R1→R2 is assigned via the routing table, so its delay is
`11 + DISTANT_DELAY = 13`, not the claimed `11 + 1 = 12` (and the reply
at R3 is assigned `5 + NEIGHBOUR_DELAY = 6`, not `5 + 2 = 7`, since its
next hop R2 is a direct neighbour). -/
theorem line_delays_counterexample :
    (lineNet.runFor 0 oneDraw 1 1).map
        (fun x => x.1.packets.map (fun p => (p.via, p.delay))) =
      .ok [(some 2, some 13)] ∧
    (some (13 : Int) : Option Int) ≠ some (11 + 1) := by
  exact ⟨rfl, by decide⟩

/-- C2 amended: in the line scenario with `Q = 0` (any strictly positive
draw stream), the assigned hop delays are, in order: `11 + DISTANT_DELAY`
when R1 sends the request toward R2 via its table (tick 1),
`5 + NEIGHBOUR_DELAY` when R2 forwards it to its neighbour R3 (tick 14),
`5 + NEIGHBOUR_DELAY` when R3 generates the reply via its neighbour R2
(tick 20), and `11 + NEIGHBOUR_DELAY` when R2 forwards the reply to R1
(tick 26); the run ends after 38 ticks with exactly one delivered report
for the connection. -/
theorem line_scenario (draw : Nat → Nat → ℚ)
    (hpos : ∀ m n, 0 < draw m n) :
    (lineNet.runFor 0 draw 1 1).map
        (fun x => x.1.packets.map (fun p => (p.via, p.delay, p.is_reply))) =
      .ok [(some 2, some (11 + DISTANT_DELAY), false)] ∧
    (lineNet.runFor 0 draw 1 14).map
        (fun x => x.1.packets.map (fun p => (p.via, p.delay, p.is_reply))) =
      .ok [(some 3, some (5 + NEIGHBOUR_DELAY), false)] ∧
    (lineNet.runFor 0 draw 1 20).map
        (fun x => x.1.packets.map (fun p => (p.via, p.delay, p.is_reply))) =
      .ok [(some 2, some (5 + NEIGHBOUR_DELAY), true)] ∧
    (lineNet.runFor 0 draw 1 26).map
        (fun x => x.1.packets.map (fun p => (p.via, p.delay, p.is_reply))) =
      .ok [(some 1, some (11 + NEIGHBOUR_DELAY), true)] ∧
    (lineNet.runFor 0 draw 1 38).map (fun x => (x.1.finished, x.2)) =
      .ok (true, [.delivered 38 7 1 3 1]) := by
  rw [runFor_pos_draw draw hpos 1, runFor_pos_draw draw hpos 14,
    runFor_pos_draw draw hpos 20, runFor_pos_draw draw hpos 26,
    runFor_pos_draw draw hpos 38]
  exact ⟨rfl, rfl, rfl, rfl, rfl⟩

/-- Witness for `line_scenario` at the constant draw stream 1. -/
theorem line_scenario_witness :
    (∀ m n, 0 < oneDraw m n) ∧
    (lineNet.runFor 0 oneDraw 1 38).map (fun x => (x.1.finished, x.2)) =
      .ok (true, [.delivered 38 7 1 3 1]) := by
  refine ⟨fun m n => by norm_num [oneDraw], ?_⟩
  exact (line_scenario oneDraw (fun m n => by norm_num [oneDraw])).2.2.2.2

/-- Whether an event is a `status=delivered` report. -/
def isDeliveredEv : Event → Bool := fun e =>
  match e with
  | .delivered _ _ _ _ _ => true
  | _ => false

/-- Two linkless routers with empty (hence cycle-free) routing tables
and one request from 1 to 2 that no router can route. -/
def noRouteNet : Network :=
  Network.init [{ id := 1 }, { id := 2 }]
    [{ source := 1, destination := 2, connection := 0 }]

/-- One router with a request addressed to itself (cycle-free empty
routing table): reply construction raises the lookup error. -/
def selfNet : Network :=
  Network.init [{ id := 1 }]
    [{ source := 1, destination := 1, connection := 0 }]

/-- C8 counterexample: `noRouteNet` is a finite topology whose routing
tables contain no cycles and `Q = 0`, yet its single request produces
zero delivered reports (the run does terminate, after one tick). -/
theorem run_termination_counterexample :
    (noRouteNet.runFor 0 oneDraw 1 1).map
        (fun x => (x.1.finished, x.2.countP isDeliveredEv)) =
      .ok (true, 0) ∧
    (0 : Nat) ≠ 1 := by
  exact ⟨rfl, by decide⟩

/-- C8 amended: with `Q = 0` and cycle-free routing tables, `run()` need
not deliver one report per request, and need not even reach
`finished()`: at `noRouteNet` the run terminates after one tick with
zero delivered reports (the request is destroyed as unroutable); at
`selfNet` every run of ≥ 1 ticks raises the route-lookup error, so
`finished()` is never reached; when every hop of the request and of the
reply is routable — as in the 3-router line scenario — the run does
terminate (tick 38) with exactly one delivered report for its one
request. -/
theorem run_termination :
    ((noRouteNet.runFor 0 oneDraw 1 1).map
        (fun x => (x.1.finished, x.2.countP isDeliveredEv)) =
      .ok (true, 0)) ∧
    (∀ n, selfNet.runFor 0 oneDraw 1 (n + 1) = .error .keyErr) ∧
    ((lineNet.runFor 0 oneDraw 1 38).map
        (fun x => (x.1.finished, x.2.countP isDeliveredEv)) =
      .ok (true, 1)) := by
  refine ⟨rfl, ?_, rfl⟩
  intro n
  have htick : selfNet.tick 0 (oneDraw 1) 1 = .error .keyErr := rfl
  simp [Network.runFor, htick]

/-- A packet with both its next hop and its countdown assigned. -/
def goodPacket (p : Packet) : Bool := p.via.isSome && p.delay.isSome

/-- `Packet.tick` does not change the next hop. -/
theorem Packet.tick_via (p : Packet) : p.tick.1.via = p.via := by
  cases hd : p.delay <;> simp [Packet.tick, hd]

/-- Total number of packets queued at router inputs. -/
def inputSum (rs : List Router) : Nat :=
  (rs.map (fun r => r.input.length)).sum

/-- Total number of packets queued at router outputs. -/
def outputSum (rs : List Router) : Nat :=
  (rs.map (fun r => r.output.length)).sum

/-- The number of live packets: in transit plus queued at any router. -/
def liveCount (net : Network) : Nat :=
  net.packets.length + inputSum net.routers + outputSum net.routers

/-- Processing one packet leaves the input queue alone and appends at
most one packet — with next hop and countdown assigned — to the output
queue. -/
theorem processPacket_spec (r : Router) (i : Nat) (p : Packet) (r' : Router)
    (ev : List Event) (h : r.processPacket i p = .ok (r', ev)) :
    r'.input = r.input ∧
    ∃ tail, r'.output = r.output ++ tail ∧ tail.length ≤ 1 ∧
      ∀ p' ∈ tail, goodPacket p' := by
  unfold Router.processPacket at h
  split at h
  case isTrue hdst =>
    split at h
    case isTrue hrep =>
      simp only [Except.ok.injEq, Prod.mk.injEq] at h
      obtain ⟨h1, h2⟩ := h
      subst h1
      exact ⟨rfl, [], by simp, by simp, by simp⟩
    case isFalse hrep =>
      rcases hv : r.get_route_for p.source with _ | v
      · simp [hv] at h
      · rcases hl : List.lookup v r.connections with _ | d
        · simp [hv, hl] at h
        · simp only [hv, hl, Except.ok.injEq, Prod.mk.injEq] at h
          obtain ⟨h1, h2⟩ := h
          subst h1
          exact ⟨rfl, _, rfl, by simp, by simp [goodPacket]⟩
  case isFalse hdst =>
    split at h
    · simp only [Except.ok.injEq, Prod.mk.injEq] at h
      obtain ⟨h1, h2⟩ := h
      subst h1
      exact ⟨rfl, _, rfl, by simp, by simp [goodPacket]⟩
    · split at h
      · split at h
        · simp only [Except.ok.injEq, Prod.mk.injEq] at h
          obtain ⟨h1, h2⟩ := h
          subst h1
          exact ⟨rfl, _, rfl, by simp, by simp [goodPacket]⟩
        · exact absurd h (by simp)
      · simp only [Except.ok.injEq, Prod.mk.injEq] at h
        obtain ⟨h1, h2⟩ := h
        subst h1
        exact ⟨rfl, [], by simp, by simp, by simp⟩

/-- Delivering to a router changes no output queue. -/
theorem addInput_outputs : ∀ (rs : List Router) (v : Nat) (p : Packet),
    (addInput rs v p).map (fun r => r.output) =
      rs.map (fun r => r.output) := by
  intro rs v p
  induction rs with
  | nil => rfl
  | cons r rs ih =>
    unfold addInput
    split <;> simp [ih]

/-- Delivering to a router grows the input total by at most one. -/
theorem addInput_inputSum : ∀ (rs : List Router) (v : Nat) (p : Packet),
    inputSum (addInput rs v p) ≤ inputSum rs + 1 := by
  intro rs v p
  induction rs with
  | nil => simp [addInput, inputSum]
  | cons r rs ih =>
    unfold addInput
    split
    · simp [inputSum]; omega
    · simp only [inputSum, List.map_cons, List.sum_cons] at ih ⊢
      omega

/-- Delivering to a router preserves the output total. -/
theorem addInput_outputSum (rs : List Router) (v : Nat) (p : Packet) :
    outputSum (addInput rs v p) = outputSum rs := by
  have h := addInput_outputs rs v p
  simp only [outputSum]
  rw [show (addInput rs v p).map (fun r => r.output.length) =
    ((addInput rs v p).map (fun r => r.output)).map List.length by
      simp [List.map_map, Function.comp]]
  rw [h]
  simp [List.map_map, Function.comp_def]

/-- The loss phase only removes packets: its survivors are a sublist of
the input. -/
theorem dropGo_sublist (q : ℚ) (draw : Nat → ℚ) (i : Nat) :
    ∀ (ps : List Packet) (k : Nat) (ps' : List Packet) (ev : List Event),
      dropGo q draw i k ps = .ok (ps', ev) → ps'.Sublist ps := by
  intro ps
  induction ps with
  | nil =>
    intro k ps' ev h
    simp only [dropGo, Except.ok.injEq, Prod.mk.injEq] at h
    rw [← h.1]
  | cons p ps ih =>
    intro k ps' ev h
    unfold dropGo at h
    split at h
    · rcases hv : p.via with _ | v <;> rw [hv] at h
      · exact absurd h (by simp)
      · rcases hr : dropGo q draw i (k + 1) ps with e | ⟨ps'', ev''⟩ <;>
          rw [hr] at h
        · exact absurd h (by simp)
        · simp only [Except.ok.injEq, Prod.mk.injEq] at h
          exact h.1 ▸ (ih (k + 1) ps'' ev'' hr).cons p
    · rcases hr : dropGo q draw i (k + 1) ps with e | ⟨ps'', ev''⟩ <;>
        rw [hr] at h
      · exact absurd h (by simp)
      · simp only [Except.ok.injEq, Prod.mk.injEq] at h
        exact h.1 ▸ (ih (k + 1) ps'' ev'' hr).cons₂ p

/-- The delivery phase: moves at most `ps.length` packets into router
inputs, never touches an output queue, and keeps only good survivors in
transit. -/
theorem deliver_spec :
    ∀ (ps : List Packet) (rs rs' : List Router) (ps' : List Packet),
      deliver_packets rs ps = .ok (rs', ps') →
      ps'.length + inputSum rs' ≤ ps.length + inputSum rs ∧
      rs'.map (fun r => r.output) = rs.map (fun r => r.output) ∧
      ((∀ p ∈ ps, goodPacket p) → ∀ p' ∈ ps', goodPacket p') := by
  intro ps
  induction ps with
  | nil =>
    intro rs rs' ps' h
    simp only [deliver_packets, Except.ok.injEq, Prod.mk.injEq] at h
    obtain ⟨h1, h2⟩ := h
    subst h1; subst h2
    exact ⟨by omega, rfl, by simp⟩
  | cons p ps ih =>
    intro rs rs' ps' h
    unfold deliver_packets at h
    rcases hd : p.delay with _ | d <;> simp only [Packet.tick, hd] at h
    · obtain ⟨h1, h2, h3⟩ := ih rs rs' ps' h
      refine ⟨by simp only [List.length_cons]; omega, h2,
        fun hg p' hp' => h3 ?_ p' hp'⟩
      intro x hx; exact hg x (by simp [hx])
    · split at h
      · rcases hv : p.via with _ | v
        · rw [hv] at h; exact absurd h (by simp)
        · rw [hv] at h
          obtain ⟨h1, h2, h3⟩ := ih _ rs' ps' h
          have h1' := le_trans h1
            (Nat.add_le_add_left (addInput_inputSum _ _ _) ps.length)
          refine ⟨by simp only [List.length_cons]; omega,
            h2.trans (addInput_outputs _ _ _),
            fun hg p' hp' => h3 ?_ p' hp'⟩
          intro x hx; exact hg x (by simp [hx])
      · rcases hr : deliver_packets rs ps with e | ⟨rs'', ps''⟩ <;>
          rw [hr] at h
        · exact absurd h (by simp)
        · simp only [Except.ok.injEq, Prod.mk.injEq] at h
          obtain ⟨h1, h2⟩ := h
          subst h1
          obtain ⟨h1, h2', h3⟩ := ih rs rs'' ps'' hr
          refine ⟨?_, h2', ?_⟩
          · rw [← h2]; simp only [List.length_cons]; omega
          · intro hg p' hp'
            rw [← h2] at hp'
            rcases List.mem_cons.mp hp' with hp' | hp'
            · subst hp'
              have hgp : goodPacket p := hg p (by simp)
              simp only [goodPacket, Bool.and_eq_true] at hgp ⊢
              exact ⟨hgp.1, by simp⟩
            · exact h3 (fun x hx => hg x (by simp [hx])) p' hp'

/-- The loss phase cannot fail when every in-transit packet has its next
hop assigned. -/
theorem dropGo_isOk (q : ℚ) (draw : Nat → ℚ) (i : Nat) :
    ∀ (ps : List Packet) (k : Nat), (∀ p ∈ ps, p.via.isSome) →
      ∃ x, dropGo q draw i k ps = .ok x := by
  intro ps
  induction ps with
  | nil => intro k _; exact ⟨([], []), rfl⟩
  | cons p ps ih =>
    intro k hv
    obtain ⟨x, hx⟩ := ih (k + 1) (fun x hx => hv x (by simp [hx]))
    obtain ⟨w, hw⟩ := Option.isSome_iff_exists.mp (hv p (by simp))
    unfold dropGo
    split
    · exact ⟨(x.1, .lost i p.connection w p.source p.destination :: x.2),
        by rw [hw, hx]⟩
    · exact ⟨(p :: x.1, x.2), by rw [hx]⟩

/-- The delivery phase cannot fail when every in-transit packet has its
next hop assigned. -/
theorem deliver_isOk :
    ∀ (ps : List Packet) (rs : List Router), (∀ p ∈ ps, p.via.isSome) →
      ∃ x, deliver_packets rs ps = .ok x := by
  intro ps
  induction ps with
  | nil => intro rs _; exact ⟨(rs, []), rfl⟩
  | cons p ps ih =>
    intro rs hv
    have hvtail : ∀ x ∈ ps, x.via.isSome :=
      fun x hx => hv x (by simp [hx])
    obtain ⟨w, hw⟩ := Option.isSome_iff_exists.mp (hv p (by simp))
    unfold deliver_packets
    rcases hd : p.delay with _ | d <;> simp only [Packet.tick, hd]
    · exact ih rs hvtail
    · split
      · simp only [hw]
        exact ih _ hvtail
      · obtain ⟨x, hx⟩ := ih rs hvtail
        exact ⟨(x.1, _ :: x.2), by rw [hx]⟩

/-- Processing a packet list leaves the input queue alone and appends at
most one good packet per processed packet to the output queue. -/
theorem processList_spec (i : Nat) :
    ∀ (ps : List Packet) (r r' : Router) (ev : List Event),
      r.processList i ps = .ok (r', ev) →
      r'.input = r.input ∧
      ∃ tail, r'.output = r.output ++ tail ∧ tail.length ≤ ps.length ∧
        ∀ p' ∈ tail, goodPacket p' := by
  intro ps
  induction ps with
  | nil =>
    intro r r' ev h
    simp only [Router.processList, Except.ok.injEq, Prod.mk.injEq] at h
    obtain ⟨h1, h2⟩ := h
    subst h1
    exact ⟨rfl, [], by simp, by simp, by simp⟩
  | cons p ps ih =>
    intro r r' ev h
    unfold Router.processList at h
    rcases h1 : r.processPacket i p with e | ⟨r₁, ev₁⟩ <;> rw [h1] at h
    · exact absurd h (by simp)
    · simp only [] at h
      rcases h2 : r₁.processList i ps with e | ⟨r₂, ev₂⟩ <;> rw [h2] at h
      · exact absurd h (by simp)
      · simp only [Except.ok.injEq, Prod.mk.injEq] at h
        obtain ⟨ha, hb⟩ := h
        subst ha
        obtain ⟨hi1, t1, ho1, hl1, hg1⟩ := processPacket_spec r i p r₁ ev₁ h1
        obtain ⟨hi2, t2, ho2, hl2, hg2⟩ := ih r₁ r₂ ev₂ h2
        refine ⟨by rw [hi2, hi1], t1 ++ t2, ?_, ?_, ?_⟩
        · rw [ho2, ho1, List.append_assoc]
        · simp only [List.length_append, List.length_cons]; omega
        · intro p' hp'
          rcases List.mem_append.mp hp' with hm | hm
          exacts [hg1 p' hm, hg2 p' hm]

/-- Draining the input queue empties it and appends at most that many
good packets to the output queue. -/
theorem process_incoming_spec (r : Router) (i : Nat) (r' : Router)
    (ev : List Event) (h : r.process_incoming_packets i = .ok (r', ev)) :
    r'.input = [] ∧
    ∃ tail, r'.output = r.output ++ tail ∧ tail.length ≤ r.input.length ∧
      ∀ p' ∈ tail, goodPacket p' := by
  unfold Router.process_incoming_packets at h
  obtain ⟨hi, tail, ho, hl, hg⟩ :=
    processList_spec i r.input { r with input := [] } r' ev h
  exact ⟨hi, tail, ho, hl, hg⟩

/-- The router-processing phase empties all inputs and grows the output
total by at most the input total, preserving output goodness. -/
theorem processRouters_spec (i : Nat) :
    ∀ (rs rs' : List Router) (ev : List Event),
      processRouters i rs = .ok (rs', ev) →
      inputSum rs' = 0 ∧
      outputSum rs' ≤ inputSum rs + outputSum rs ∧
      ((∀ r ∈ rs, ∀ p ∈ r.output, goodPacket p) →
        ∀ r' ∈ rs', ∀ p ∈ r'.output, goodPacket p) := by
  intro rs
  induction rs with
  | nil =>
    intro rs' ev h
    simp only [processRouters, Except.ok.injEq, Prod.mk.injEq] at h
    obtain ⟨h1, h2⟩ := h
    subst h1
    exact ⟨rfl, by simp [inputSum, outputSum], by simp⟩
  | cons r rs ih =>
    intro rs' ev h
    unfold processRouters at h
    rcases h1 : r.process_incoming_packets i with e | ⟨r₁, ev₁⟩ <;>
      rw [h1] at h
    · exact absurd h (by simp)
    · simp only [] at h
      rcases h2 : processRouters i rs with e | ⟨rs₁, ev₂⟩ <;> rw [h2] at h
      · exact absurd h (by simp)
      · simp only [Except.ok.injEq, Prod.mk.injEq] at h
        obtain ⟨ha, hb⟩ := h
        subst ha
        obtain ⟨hi1, t1, ho1, hl1, hg1⟩ := process_incoming_spec r i r₁ ev₁ h1
        obtain ⟨hi2, ho2, hg2⟩ := ih rs₁ ev₂ h2
        refine ⟨?_, ?_, ?_⟩
        · simp only [inputSum, List.map_cons, List.sum_cons, hi1,
            List.length_nil]
          simpa [inputSum] using hi2
        · simp only [outputSum, inputSum, List.map_cons, List.sum_cons,
            ho1, List.length_append] at *
          omega
        · intro hg r' hr' p hp
          rcases List.mem_cons.mp hr' with hm | hm
          · subst hm
            rw [ho1] at hp
            rcases List.mem_append.mp hp with hm2 | hm2
            · exact hg r (by simp) p hm2
            · exact hg1 p hm2
          · exact hg2 (fun x hx => hg x (by simp [hx])) r' hm p hp

/-- The transmission phase moves exactly the output totals into transit,
emptying all outputs and preserving goodness. -/
theorem transmit_spec (rs : List Router) :
    inputSum (transmit_packets rs).1 = inputSum rs ∧
    outputSum (transmit_packets rs).1 = 0 ∧
    (transmit_packets rs).2.length = outputSum rs ∧
    ((∀ r ∈ rs, ∀ p ∈ r.output, goodPacket p) →
      ∀ p ∈ (transmit_packets rs).2, goodPacket p) := by
  refine ⟨?_, ?_, ?_, ?_⟩
  · simp [transmit_packets, inputSum, List.map_map, Function.comp_def]
  · simp [transmit_packets, outputSum, List.map_map, Function.comp_def]
  · simp [transmit_packets, outputSum, List.map_map, Function.comp_def]
  · intro hg p hp
    simp only [transmit_packets, List.mem_flatten, List.mem_map] at hp
    obtain ⟨l, ⟨r, hr, rfl⟩, hpl⟩ := hp
    exact hg r hr p hpl

/-- Routers with the same output queues have the same output total. -/
theorem outputSum_congr (rs rs' : List Router)
    (h : rs'.map (fun r => r.output) = rs.map (fun r => r.output)) :
    outputSum rs' = outputSum rs := by
  have key : ∀ l : List Router,
      outputSum l = ((l.map (fun r => r.output)).map List.length).sum := by
    intro l; simp [outputSum, List.map_map, Function.comp_def]
  rw [key, key, h]

/-- Routers with the same output queues have the same output goodness. -/
theorem outputs_good_congr (rs rs' : List Router)
    (h : rs'.map (fun r => r.output) = rs.map (fun r => r.output))
    (hg : ∀ r ∈ rs, ∀ p ∈ r.output, goodPacket p) :
    ∀ r' ∈ rs', ∀ p ∈ r'.output, goodPacket p := by
  intro r' hr' p hp
  have hm : r'.output ∈ rs'.map (fun r => r.output) :=
    List.mem_map_of_mem _ hr'
  rw [h] at hm
  obtain ⟨r0, hr0, heq⟩ := List.mem_map.mp hm
  exact hg r0 hr0 p (by rw [heq]; exact hp)

/-- Inversion of a successful tick into its four phases. -/
theorem tick_ok_inv (net net' : Network) (q : ℚ) (draw : Nat → ℚ)
    (i : Nat) (ev : List Event) (h : net.tick q draw i = .ok (net', ev)) :
    ∃ ps₁ ev₁ rs₂ ps₂ rs₃ ev₃,
      drop_packets q draw i net.packets = .ok (ps₁, ev₁) ∧
      deliver_packets net.routers ps₁ = .ok (rs₂, ps₂) ∧
      processRouters i rs₂ = .ok (rs₃, ev₃) ∧
      net' = { routers := (transmit_packets rs₃).1,
               packets := ps₂ ++ (transmit_packets rs₃).2 } ∧
      ev = ev₁ ++ ev₃ := by
  unfold Network.tick at h
  rcases h1 : drop_packets q draw i net.packets with e | ⟨ps₁, ev₁⟩ <;>
    rw [h1] at h
  · exact absurd h (by simp)
  · simp only [] at h
    rcases h2 : deliver_packets net.routers ps₁ with e | ⟨rs₂, ps₂⟩ <;>
      rw [h2] at h
    · exact absurd h (by simp)
    · simp only [] at h
      rcases h3 : processRouters i rs₂ with e | ⟨rs₃, ev₃⟩ <;> rw [h3] at h
      · exact absurd h (by simp)
      · simp only [transmit_packets] at h
        simp only [Except.ok.injEq, Prod.mk.injEq] at h
        obtain ⟨ha, hb⟩ := h
        exact ⟨ps₁, ev₁, rs₂, ps₂, rs₃, ev₃, rfl, h2, h3,
          by rw [← ha]; simp [transmit_packets], hb.symm⟩

/-- C7: a successful tick never increases the number of live packets
(in transit plus queued at any input or output), and processing a single
packet appends at most one packet (the 1:1 reply or the forwarded packet
itself) to the output queue. -/
theorem packet_conservation (net net' : Network) (q : ℚ) (draw : Nat → ℚ)
    (i : Nat) (ev : List Event) (h : net.tick q draw i = .ok (net', ev)) :
    liveCount net' ≤ liveCount net ∧
    (∀ (r : Router) (j : Nat) (p : Packet) (r₂ : Router) (ev₂ : List Event),
      r.processPacket j p = .ok (r₂, ev₂) →
      r₂.output.length ≤ r.output.length + 1) := by
  constructor
  · obtain ⟨ps₁, ev₁, rs₂, ps₂, rs₃, ev₃, h1, h2, h3, h4, h5⟩ :=
      tick_ok_inv net net' q draw i ev h
    have hdrop : ps₁.length ≤ net.packets.length :=
      (dropGo_sublist q draw i net.packets 0 ps₁ ev₁ h1).length_le
    obtain ⟨hdel1, hdel2, _⟩ := deliver_spec ps₁ net.routers rs₂ ps₂ h2
    have hdelout : outputSum rs₂ = outputSum net.routers :=
      outputSum_congr _ _ hdel2
    obtain ⟨hp1, hp2, _⟩ := processRouters_spec i rs₂ rs₃ ev₃ h3
    obtain ⟨ht1, ht2, ht3, _⟩ := transmit_spec rs₃
    subst h4
    simp only [liveCount, List.length_append]
    omega
  · intro r j p r₂ ev₂ hpp
    obtain ⟨_, tail, ho, hl, _⟩ := processPacket_spec r j p r₂ ev₂ hpp
    rw [ho]; simp only [List.length_append]; omega

/-- Witness for `packet_conservation` at `noRouteNet`'s first tick. -/
theorem packet_conservation_witness :
    noRouteNet.tick 0 (oneDraw 1) 1 =
      .ok ({ routers := [{ id := 1 }, { id := 2 }], packets := [] },
        [.lostAt 0 1 2 none (some 0) 0 1]) ∧
    liveCount { routers := [{ id := 1 }, { id := 2 }], packets := [] } ≤
      liveCount noRouteNet := by
  refine ⟨rfl, ?_⟩
  exact (packet_conservation noRouteNet _ 0 (oneDraw 1) 1 _ rfl).1

/-- A network in which every in-transit packet and every output-queued
packet has its next hop and countdown assigned. -/
def GoodNet (net : Network) : Prop :=
  (∀ p ∈ net.packets, goodPacket p) ∧
  ∀ r ∈ net.routers, ∀ p ∈ r.output, goodPacket p

/-- C10: when every in-transit and output-queued packet has `via` and an
integer `delay` assigned, the loss phase and the delivery phase never
dereference a null next hop (they cannot return the `viaNone` error),
and a successful tick preserves the invariant. -/
theorem transit_next_hop (net : Network) (q : ℚ) (draw : Nat → ℚ) (i : Nat)
    (hg : GoodNet net) :
    (∃ x, drop_packets q draw i net.packets = .ok x) ∧
    (∀ ps₁ ev₁, drop_packets q draw i net.packets = .ok (ps₁, ev₁) →
      ∃ y, deliver_packets net.routers ps₁ = .ok y) ∧
    (∀ net' ev, net.tick q draw i = .ok (net', ev) → GoodNet net') := by
  have hvia : ∀ p ∈ net.packets, p.via.isSome := by
    intro p hp
    have hgp := hg.1 p hp
    simp only [goodPacket, Bool.and_eq_true] at hgp
    exact hgp.1
  refine ⟨?_, ?_, ?_⟩
  · exact dropGo_isOk q draw i net.packets 0 hvia
  · intro ps₁ ev₁ h1
    have hsub := dropGo_sublist q draw i net.packets 0 ps₁ ev₁ h1
    exact deliver_isOk ps₁ net.routers (fun p hp => hvia p (hsub.subset hp))
  · intro net' ev h
    obtain ⟨ps₁, ev₁, rs₂, ps₂, rs₃, ev₃, h1, h2, h3, h4, _⟩ :=
      tick_ok_inv net net' q draw i ev h
    have hsub := dropGo_sublist q draw i net.packets 0 ps₁ ev₁ h1
    have hg1 : ∀ p ∈ ps₁, goodPacket p :=
      fun p hp => hg.1 p (hsub.subset hp)
    obtain ⟨_, hmap, hgood⟩ := deliver_spec ps₁ net.routers rs₂ ps₂ h2
    have hps₂ : ∀ p ∈ ps₂, goodPacket p := hgood hg1
    have hrs₂ : ∀ r ∈ rs₂, ∀ p ∈ r.output, goodPacket p :=
      outputs_good_congr net.routers rs₂ hmap hg.2
    obtain ⟨_, _, hg3⟩ := processRouters_spec i rs₂ rs₃ ev₃ h3
    have hrs₃ := hg3 hrs₂
    obtain ⟨_, _, _, htg⟩ := transmit_spec rs₃
    subst h4
    constructor
    · intro p hp
      rcases List.mem_append.mp hp with hm | hm
      · exact hps₂ p hm
      · exact htg hrs₃ p hm
    · intro r hr p hp
      simp only [transmit_packets, List.mem_map] at hr
      obtain ⟨r0, _, rfl⟩ := hr
      simp at hp

/-- Witness for `transit_next_hop` at `lineNet`. -/
theorem transit_next_hop_witness :
    GoodNet lineNet ∧
    (∃ x, drop_packets 0 (oneDraw 1) 1 lineNet.packets = .ok x) := by
  have hg : GoodNet lineNet := ⟨by decide, by decide⟩
  exact ⟨hg, (transit_next_hop lineNet 0 (oneDraw 1) 1 hg).1⟩
